import Mathlib

/-!
Verification of the spaceforge-xai per-tick scheduling and power core.

Shallow embedding of the C++ sources:
* power routing: PowerBus (src/unnamed/part_008) and Battery
  (header src/unnamed/part_022; the method bodies of discharge and
  chargeFromSurplus are not in the tree and are modelled from the spec);
* thermal actuator: EffusionCell::applyHeat (src/unnamed/part_002);
* the leader loop of src/Sim/src/main.cpp: active-job selection, job-change
  reset, engine snapshot row, and the job-health gate state machine;
* the warm-up estimator estimateWarmupTicksForFlux (src/Sim/src/main.cpp)
  over the reals.

Machine doubles are modelled as exact rationals (for the tick machine) or
reals (for the logarithmic warm-up estimator); the is-finite guards of the
source are dropped because the model has no non-finite values.
-/

set_option maxHeartbeats 1000000

namespace SpaceforgeXai

/-- Battery state, fields from the class declaration in src/unnamed/part_022:
capacity and charge in Wh, rate limits in W (constructor default capacity
6000, charge = capacity / 2; rates 1600 W / 1200 W). -/
structure Battery where
  capacity : ℚ
  charge : ℚ
  max_charge_rate_W : ℚ
  max_discharge_rate_W : ℚ
deriving DecidableEq

/-- Modelled from the spec: the body of Battery::discharge is not in the
source tree (only the declaration, src/unnamed/part_022 lines 26 to 29, and
the call site in PowerBus::drawPower).  Spec section 4.2: delivered =
min(needed_W, max_discharge_rate_W, charge_Wh * 3600 / dt); the delivered
watts are converted to Wh over dt and subtracted, clamping charge to 0 or
more; returns 0 for needed_W at most 0 and treats non-positive dt as a
no-op. -/
def Battery.discharge (b : Battery) (needed_W dt : ℚ) : ℚ × Battery :=
  if needed_W ≤ 0 ∨ dt ≤ 0 then (0, b)
  else
    let delivered := min needed_W (min b.max_discharge_rate_W (b.charge * 3600 / dt))
    (delivered, { b with charge := max 0 (b.charge - delivered * dt / 3600) })

/-- Modelled from the spec: the body of Battery::chargeFromSurplus is not in
the source tree (only the declaration, src/unnamed/part_022 line 29, and the
call site in PowerBus::tick).  Spec section 4.2: actual_W = min(surplus_W,
max_charge_rate_W), converted to Wh over dt and added, clamped to the
capacity; no-op for surplus_W at most 0 or non-positive dt. -/
def Battery.chargeFromSurplus (b : Battery) (surplus_W dt : ℚ) : Battery :=
  if surplus_W ≤ 0 ∨ dt ≤ 0 then b
  else
    let actual := min surplus_W b.max_charge_rate_W
    { b with charge := min b.capacity (b.charge + actual * dt / 3600) }

/-- Per-tick PowerBus state, fields from src/unnamed/part_008. -/
structure PowerBus where
  available_power : ℚ
  added_this_tick : ℚ
  requested_this_tick : ℚ
  granted_this_tick : ℚ
deriving DecidableEq

/-- Embedding of PowerBus::addPower (src/unnamed/part_008 lines 28 to 33). -/
def PowerBus.addPower (pb : PowerBus) (watts : ℚ) : PowerBus :=
  if 0 < watts then
    { pb with
      available_power := pb.available_power + watts
      added_this_tick := pb.added_this_tick + watts }
  else pb

/-- Embedding of PowerBus::drawPower (src/unnamed/part_008 lines 35 to 57).
The linked battery (installed once via setBattery in main) is threaded
explicitly; the result is (total granted, new bus, new battery). -/
def PowerBus.drawPower (pb : PowerBus) (b : Battery) (requested dt : ℚ) :
    ℚ × PowerBus × Battery :=
  if requested ≤ 0 then (0, pb, b)
  else
    let granted_from_bus := min requested pb.available_power
    let remaining_need := requested - granted_from_bus
    let res := if 0 < remaining_need then b.discharge remaining_need dt else (0, b)
    let total_granted := granted_from_bus + res.1
    (total_granted,
      { available_power := pb.available_power - granted_from_bus
        added_this_tick := pb.added_this_tick
        requested_this_tick := pb.requested_this_tick + requested
        granted_this_tick := pb.granted_this_tick + total_granted },
      res.2)

/-- Embedding of PowerBus::tick (src/unnamed/part_008 lines 59 to 79): push
any leftover available power into the battery via chargeFromSurplus, then
reset the four per-tick fields; the CSV row it emits is external output and
not part of the state. -/
def PowerBus.tick (pb : PowerBus) (b : Battery) (dt : ℚ) : PowerBus × Battery :=
  let b2 := if 0 < pb.available_power then b.chargeFromSurplus pb.available_power dt else b
  ({ available_power := 0, added_this_tick := 0,
     requested_this_tick := 0, granted_this_tick := 0 }, b2)

/-- Thermal actuator state; temperature in K plus the two reporting fields
set by applyHeat (src/unnamed/part_002). -/
structure EffusionCell where
  temperature : ℚ
  last_heat_W : ℚ
  heat_input_w : ℚ
deriving DecidableEq

/-- Embedding of EffusionCell::applyHeat (src/unnamed/part_002 lines 69 to
93): first-order RC update with C = 1000 J/K, h = 1.5 W/K, T_env = 300 K,
negative watts and dt clamped to zero, resulting temperature clamped to 0 or
more. -/
def EffusionCell.applyHeat (c : EffusionCell) (watts dt : ℚ) : EffusionCell :=
  let w := max 0 watts
  let dt_pos := max 0 dt
  let net_W := w - (3 / 2) * (c.temperature - 300)
  let dT := (net_W / 1000) * dt_pos
  let t2 := c.temperature + dT
  { temperature := if t2 < 0 then 0 else t2
    last_heat_W := w
    heat_input_w := w }

/-- Temperature after n repeated calls of applyHeat(0, dt) starting from
temperature T0 (the scenario of the RC idempotence property). -/
def coolIter (T0 dt : ℚ) (n : Nat) : ℚ :=
  ((fun c => EffusionCell.applyHeat c 0 dt)^[n]
    { temperature := T0, last_heat_W := 0, heat_input_w := 0 }).temperature

/-- A job from jobs.txt (SimHelpers::Job, src/unnamed/part_018 lines 30 to
35) together with the quantities the leader loop derives from its flux once
per tick: heater_W stands for fluxToHeaterPower(Fwafer_cm2s), target_T for
the per-tick target temperature (targetTempForFlux of the flux for positive
flux, the 300 K idle baseline otherwise), and warmup for the cached
jobWarmupTicks entry.  The flux mappings themselves are embedded over the
reals further below; the scheduling and gate logic only consumes their
values, so the job record carries them. -/
structure MJob where
  start_tick : Int
  end_tick : Int
  heater_W : ℚ
  target_T : ℚ
  warmup : Nat
deriving DecidableEq

/-- Default-constructed SimHelpers::Job with idle derived values; used only
as the out-of-range fallback when dereferencing the active job (dead code,
since selection only returns in-range indices). -/
def mjobIdle : MJob :=
  { start_tick := 0, end_tick := -1, heater_W := 0, target_T := 300, warmup := 0 }

/-- Leader-side mutable state of the wake main loop (src/Sim/src/main.cpp
lines 489 to 507) plus the engine job-failed flag
(SimulationEngine::job_failed_flag_). curIdx models the
currentJob/currentJobIndex pair (none for nullptr). -/
structure LoopState where
  jobAborted : List Bool
  curIdx : Option Nat
  underflux_streak : Nat
  temp_miss_streak : Nat
  job_tick_counter : Nat
  temp_proxy : ℚ
  job_failed_flag : Bool
deriving DecidableEq

/-- State before the first tick: jobs loaded, nothing aborted, counters zero,
temp proxy at ambient, engine flag cleared by initialize(). -/
def initLoopState (njobs : Nat) : LoopState :=
  { jobAborted := List.replicate njobs false, curIdx := none,
    underflux_streak := 0, temp_miss_streak := 0, job_tick_counter := 0,
    temp_proxy := 300, job_failed_flag := false }

/-- Active-job scan of src/Sim/src/main.cpp lines 542 to 551: walk the job
list from absolute index idx, skip entries already aborted, and the first job
whose inclusive window contains the tick wins. -/
def selectJobAux (abt : List Bool) (tick : Int) : List MJob → Nat → Option Nat
  | [], _ => none
  | j :: rest, idx =>
      if abt.getD idx false = false ∧ j.start_tick ≤ tick ∧ tick ≤ j.end_tick then
        some idx
      else
        selectJobAux abt tick rest (idx + 1)

/-- Active-job selection for one tick (first match wins, aborted skipped). -/
def selectJob (jobs : List MJob) (abt : List Bool) (tick : Int) : Option Nat :=
  selectJobAux abt tick jobs 0

/-- Index i currently qualifies for selection at the given tick: in range,
not marked aborted, and its inclusive window contains the tick. -/
def Eligible (jobs : List MJob) (abt : List Bool) (tick : Int) (i : Nat) : Prop :=
  abt.getD i false = false ∧
    ∃ j, jobs.get? i = some j ∧ j.start_tick ≤ tick ∧ tick ≤ j.end_tick

/-- One evaluation of the job-health gates (src/Sim/src/main.cpp lines 707 to
841) for the active job j at index i: RC temp-proxy update (same constants as
EffusionCell::applyHeat), warm-up arming, under-flux and temperature streak
updates, and the abort branch.  Arguments uf, tm, jtc, proxy are the per-job
counters after the job-change reset and the tick-counter increment; P is the
power actually delivered this tick (effCell.getLastHeatInputW()). -/
def activeStep (dt P : ℚ) (i : Nat) (j : MJob) (abt : List Bool)
    (uf tm jtc : Nat) (proxy : ℚ) : LoopState :=
  if (1 / 1000000 : ℚ) < j.heater_W then
    let proxy1 := proxy + ((P - (3 / 2) * (proxy - 300)) / 1000) * dt
    let proxy2 := if proxy1 < 0 then 0 else proxy1
    let flux_ratio := if (0 : ℚ) < j.heater_W then P / j.heater_W else 1
    let uf1 := if j.warmup < jtc ∧ (310 : ℚ) < j.target_T then
                 (if flux_ratio < 99 / 100 then uf + 1 else 0) else 0
    let tm1 := if j.warmup < jtc ∧ (310 : ℚ) < j.target_T then
                 (if proxy2 / j.target_T < 19 / 20 then tm + 1 else 0) else 0
    if (5 ≤ uf1 ∨ ((j.warmup < jtc ∧ (310 : ℚ) < j.target_T) ∧ 5 ≤ tm1)) ∧
        i < abt.length ∧ abt.getD i false = false then
      { jobAborted := abt.set i true, curIdx := none, underflux_streak := 0,
        temp_miss_streak := 0, job_tick_counter := 0, temp_proxy := 300,
        job_failed_flag := true }
    else
      { jobAborted := abt, curIdx := some i, underflux_streak := uf1,
        temp_miss_streak := tm1, job_tick_counter := jtc, temp_proxy := proxy2,
        job_failed_flag := false }
  else
    { jobAborted := abt, curIdx := some i, underflux_streak := uf,
      temp_miss_streak := 0, job_tick_counter := jtc, temp_proxy := proxy,
      job_failed_flag := false }

/-- One leader-loop tick (src/Sim/src/main.cpp lines 512 to 842): active-job
selection, job-change reset of the per-job counters, tick-counter update,
the engine tick (SimulationEngine::tick logs the snapshot row carrying the
current job_failed flag and then clears it), and the health-gate evaluation
for the active job.  Returns the new state together with the job_failed
value of the snapshot row emitted this tick. -/
def tickStep (jobs : List MJob) (dt P : ℚ) (tick : Int) (s : LoopState) :
    LoopState × Bool :=
  let row := s.job_failed_flag
  let newIdx := selectJob jobs s.jobAborted tick
  let uf0 := if newIdx = s.curIdx then s.underflux_streak else 0
  let tm0 := if newIdx = s.curIdx then s.temp_miss_streak else 0
  let jtc0 := if newIdx = s.curIdx then s.job_tick_counter else 0
  let proxy0 := if newIdx = s.curIdx then s.temp_proxy else 300
  match newIdx with
  | none =>
      ({ jobAborted := s.jobAborted, curIdx := none, underflux_streak := uf0,
         temp_miss_streak := 0, job_tick_counter := 0, temp_proxy := proxy0,
         job_failed_flag := false }, row)
  | some i =>
      (activeStep dt P i ((jobs.get? i).getD mjobIdle) s.jobAborted uf0 tm0
        (jtc0 + 1) proxy0, row)

/-- Leader-loop state after n ticks, with the per-tick delivered heater power
given by P (ticks are 1-based as in the main loop). -/
def runState (jobs : List MJob) (dt : ℚ) (P : Nat → ℚ) : Nat → LoopState
  | 0 => initLoopState jobs.length
  | n + 1 => (tickStep jobs dt (P (n + 1)) ((n + 1 : Nat) : Int) (runState jobs dt P n)).1

/-- job_failed column of the SimulationEngine snapshot row for tick m (row 0
is the initialize row, which always carries false). -/
def rowJobFailed (jobs : List MJob) (dt : ℚ) (P : Nat → ℚ) : Nat → Bool
  | 0 => false
  | n + 1 => (tickStep jobs dt (P (n + 1)) ((n + 1 : Nat) : Int) (runState jobs dt P n)).2

/-- Embedding of SimHelpers::fluxToHeaterPower (src/Sim/src/main.cpp helper
file, lines 970 to 995): clamp the flux into the design band, interpolate the
heater power linearly between 120 W and 180 W, then safety-clamp into
\[0, 200]. Non-positive flux maps to 0 (the is-finite guard is dropped). -/
noncomputable def fluxToHeaterPower (F : ℝ) : ℝ :=
  if F ≤ 0 then 0
  else
    let F1 := if F < 5e13 then 5e13 else F
    let F2 := if 1e14 < F1 then 1e14 else F1
    let scale := (F2 - 5e13) / (1e14 - 5e13)
    let P := 120 + scale * (180 - 120)
    let P1 := if P < 0 then 0 else P
    if 200 < P1 then 200 else P1

/-- Embedding of std::clamp(v, lo, hi) as used by targetTempForFlux. -/
noncomputable def cppClamp (v lo hi : ℝ) : ℝ :=
  if v < lo then lo else if hi < v then hi else v

/-- Embedding of targetTempForFlux (src/Sim/src/main.cpp lines 72 to 99):
log-interpolated effusion target temperature between 1100 K and 1300 K over
the clamped design flux band; 300 K for non-positive flux. -/
noncomputable def targetTempForFlux (F : ℝ) : ℝ :=
  if F ≤ 0 then 300
  else
    let Fc := cppClamp F 5e13 1e14
    let logF := Real.log Fc
    let logFlow := Real.log 5e13
    let logFhigh := Real.log 1e14
    let denom := logFhigh - logFlow
    let alpha0 := if 0 < denom then (logF - logFlow) / denom else 0
    let alpha := cppClamp alpha0 0 1
    1100 + alpha * (1300 - 1100)

/-- Embedding of estimateWarmupTicksForFlux (src/Sim/src/main.cpp lines 107
to 172): map the flux to heater power and target temperature, compute the
steady state under the RC constants C = 1000 J/K and h = 1.5 W/K, pick the
gate temperature as 90 percent of the target with a fallback to 90 percent of
the steady state, solve the closed-form charging time, convert to ticks with
a ceiling, and clamp into \[0, 60]. -/
noncomputable def estimateWarmupTicksForFlux (F dt : ℝ) : ℤ :=
  if dt ≤ 0 then 0
  else
    let P := fluxToHeaterPower F
    if P ≤ 0 then 0
    else
      let Tt := targetTempForFlux F
      if Tt ≤ 300 + 10 then 0
      else
        let Tss := 300 + P / 1.5
        if Tss ≤ 300 + 1 then 0
        else
          let Tg0 := 0.9 * Tt
          let Tg := if Tss ≤ Tg0 then 0.9 * Tss else Tg0
          let numer := Tg - 300
          let denom := Tss - 300
          if numer ≤ 0 ∨ denom ≤ 0 then 0
          else
            let ratio0 := numer / denom
            let ratio1 := if 1 ≤ ratio0 then 0.999 else ratio0
            let ratio := if ratio1 ≤ 0 then 0 else ratio1
            let tau := 1000 / 1.5
            let tgate := -tau * Real.log (1 - ratio)
            if tgate ≤ 0 then 0
            else
              let ticks := ⌈tgate / dt⌉
              if ticks < 0 then 0 else if 60 < ticks then 60 else ticks

/-- The closed form exactly as the claim words it: tau = C/h = 1000/1.5 and
ratio the gate fraction (0.9) of the target-temperature rise over the
steady-state rise, with no steady-state fallback, capped at the fixed maximum
tick count (and floored at 0). -/
noncomputable def claimWarmupClosedForm (F dt : ℝ) : ℤ :=
  let P := fluxToHeaterPower F
  let Tt := targetTempForFlux F
  let Tss := 300 + P / 1.5
  let ratio := (0.9 * Tt - 300) / (Tss - 300)
  min 60 (max 0 ⌈-(1000 / 1.5) * Real.log (1 - ratio) / dt⌉)

/-- The gate ratio as the amended claim words it: the rise of the gate
temperature over the steady-state rise, where the gate temperature is 90
percent of the target but falls back to 90 percent of the steady state
whenever that 90-percent mark is at or above the steady state. -/
noncomputable def warmupGateRatio (F : ℝ) : ℝ :=
  let P := fluxToHeaterPower F
  let Tt := targetTempForFlux F
  let Tss := 300 + P / 1.5
  let Tg := if Tss ≤ 0.9 * Tt then 0.9 * Tss else 0.9 * Tt
  (Tg - 300) / (Tss - 300)

/-- The compliance-gate transition property claimed for one armed tick of an
active job: during warm-up both streaks are pinned to zero and nothing is
aborted; once armed, a failing tick on an axis increments that streak and the
abort fires exactly when a streak reaches 5 (never below), while a passing
tick resets that axis to zero. Stated for the state reached by tickStep. -/
def GateStepClaim (jobs : List MJob) (dt P : ℚ) (tick : Int) (s : LoopState)
    (i : Nat) (j : MJob) : Prop :=
  let s2 := (tickStep jobs dt P tick s).1
  let jtc := s.job_tick_counter + 1
  let proxy1 := s.temp_proxy + ((P - (3 / 2) * (s.temp_proxy - 300)) / 1000) * dt
  let proxy2 := if proxy1 < 0 then 0 else proxy1
  let fluxMiss := P / j.heater_W < 99 / 100
  let tempMiss := proxy2 / j.target_T < 19 / 20
  let uf1 := if fluxMiss then s.underflux_streak + 1 else 0
  let tm1 := if tempMiss then s.temp_miss_streak + 1 else 0
  (jtc ≤ j.warmup →
      s2.underflux_streak = 0 ∧ s2.temp_miss_streak = 0 ∧
      s2.jobAborted = s.jobAborted) ∧
  (j.warmup < jtc → (310 : ℚ) < j.target_T →
    (uf1 < 5 → tm1 < 5 →
        s2.jobAborted = s.jobAborted ∧ s2.curIdx = some i ∧
        s2.underflux_streak = uf1 ∧ s2.temp_miss_streak = tm1) ∧
    ((5 ≤ uf1 ∨ 5 ≤ tm1) →
        s2.jobAborted.getD i false = true ∧ s2.job_failed_flag = true) ∧
    (¬ fluxMiss → s2.underflux_streak = 0) ∧
    (¬ tempMiss → s2.temp_miss_streak = 0))

/-- The low-target safety property of the run: a job whose derived target
temperature never exceeds 310 K is never marked aborted, and whenever it is
the active job both compliance streaks are zero. -/
def LowTargetSafe (jobs : List MJob) (dt : ℚ) (P : Nat → ℚ) (i n : Nat) : Prop :=
  (runState jobs dt P n).jobAborted.getD i false = false ∧
    ((runState jobs dt P n).curIdx = some i →
      (runState jobs dt P n).underflux_streak = 0 ∧
      (runState jobs dt P n).temp_miss_streak = 0)

/-- Concrete one-job schedule used by the concrete runs: window ticks 1 to
100, in-band heater demand and target, no warm-up ticks. -/
def jobsCex : List MJob :=
  [{ start_tick := 1, end_tick := 100, heater_W := 150, target_T := 1300, warmup := 0 }]

/-- The single job of jobsCex. -/
def jobCex : MJob :=
  { start_tick := 1, end_tick := 100, heater_W := 150, target_T := 1300, warmup := 0 }

/-- Concrete one-job schedule whose derived target temperature stays at the
300 K ambient baseline (at most 310 K). -/
def jobsLow : List MJob :=
  [{ start_tick := 1, end_tick := 100, heater_W := 150, target_T := 300, warmup := 0 }]

/-- The single job of jobsLow. -/
def jobLow : MJob :=
  { start_tick := 1, end_tick := 100, heater_W := 150, target_T := 300, warmup := 0 }

/-- Delivery history with no power ever delivered (a fully starved bus). -/
def Pzero : Nat → ℚ := fun _ => 0

/-- A mid-run leader state with the gates of jobsCex armed and partial
streaks accrued, used to instantiate the gate-step property. -/
def stGate : LoopState :=
  { jobAborted := [false], curIdx := some 0, underflux_streak := 3,
    temp_miss_streak := 2, job_tick_counter := 4, temp_proxy := 300,
    job_failed_flag := false }

/-! ## Theorems: power routing (claims C3, C4, C8) -/

/-- C3: drawPower never grants more than requested; when the bus's available
power plus what the store can deliver this tick covers the request, the full
amount is granted; and a non-positive request returns 0 with no change to the
bus or the battery. -/
theorem drawPower_partial_grant (pb : PowerBus) (b : Battery) (requested dt : ℚ) :
    (0 ≤ requested → (pb.drawPower b requested dt).1 ≤ requested) ∧
    (0 ≤ requested → 0 < dt →
      requested ≤ pb.available_power + min b.max_discharge_rate_W (b.charge * 3600 / dt) →
      (pb.drawPower b requested dt).1 = requested) ∧
    (requested ≤ 0 → pb.drawPower b requested dt = (0, pb, b)) := by
  refine ⟨?_, ?_, ?_⟩
  · intro h0
    by_cases hreq : requested ≤ 0
    · have : requested = 0 := le_antisymm hreq h0
      subst this
      simp [PowerBus.drawPower]
    · unfold PowerBus.drawPower
      rw [if_neg hreq]
      simp only []
      set gfb := min requested pb.available_power with hgfb
      have hgle : gfb ≤ requested := min_le_left _ _
      by_cases hrem : 0 < requested - gfb
      · rw [if_pos hrem]
        unfold Battery.discharge
        by_cases hcond : requested - gfb ≤ 0 ∨ dt ≤ 0
        · rw [if_pos hcond]; simp; linarith
        · rw [if_neg hcond]
          have : min (requested - gfb) (min b.max_discharge_rate_W (b.charge * 3600 / dt)) ≤
              requested - gfb := min_le_left _ _
          simp only []
          linarith
      · rw [if_neg hrem]
        simp only []
        linarith
  · intro h0 hdt hsum
    by_cases hreq : requested ≤ 0
    · have : requested = 0 := le_antisymm hreq h0
      subst this
      simp [PowerBus.drawPower]
    · unfold PowerBus.drawPower
      rw [if_neg hreq]
      simp only []
      rcases min_cases requested pb.available_power with ⟨hmin, hle⟩ | ⟨hmin, hlt⟩
      · rw [hmin]
        have hrem : ¬ 0 < requested - requested := by simp
        rw [if_neg hrem]
        simp
      · rw [hmin]
        have hrem : 0 < requested - pb.available_power := by linarith
        rw [if_pos hrem]
        unfold Battery.discharge
        have hcond : ¬ (requested - pb.available_power ≤ 0 ∨ dt ≤ 0) := by
          push_neg
          exact ⟨hrem, hdt⟩
        rw [if_neg hcond]
        simp only []
        have hcover : requested - pb.available_power ≤
            min b.max_discharge_rate_W (b.charge * 3600 / dt) := by linarith
        rw [min_eq_left hcover]
        ring
  · intro hreq
    unfold PowerBus.drawPower
    rw [if_pos hreq]

/-- Witness for C3: a 100 W request against a bus holding 30 W and a
half-full battery over a one-hour tick. -/
theorem drawPower_partial_grant_witness :
    (0 ≤ (100 : ℚ) →
      ((PowerBus.mk 30 30 0 0).drawPower (Battery.mk 1000 500 1600 1200) 100 3600).1 ≤ 100) ∧
    (0 ≤ (100 : ℚ) → 0 < (3600 : ℚ) →
      (100 : ℚ) ≤ (PowerBus.mk 30 30 0 0).available_power +
        min (Battery.mk 1000 500 1600 1200).max_discharge_rate_W
          ((Battery.mk 1000 500 1600 1200).charge * 3600 / 3600) →
      ((PowerBus.mk 30 30 0 0).drawPower (Battery.mk 1000 500 1600 1200) 100 3600).1 = 100) ∧
    ((100 : ℚ) ≤ 0 →
      (PowerBus.mk 30 30 0 0).drawPower (Battery.mk 1000 500 1600 1200) 100 3600 =
        (0, PowerBus.mk 30 30 0 0, Battery.mk 1000 500 1600 1200)) :=
  drawPower_partial_grant (PowerBus.mk 30 30 0 0) (Battery.mk 1000 500 1600 1200) 100 3600

/-- C4: PowerBus::tick pushes whatever is still sitting in available_power
into the linked store via chargeFromSurplus and resets all four per-tick
fields to zero, so no bus power persists into the next tick. -/
theorem powerbus_tick_resets (pb : PowerBus) (b : Battery) (dt : ℚ) :
    (pb.tick b dt).1.available_power = 0 ∧
    (pb.tick b dt).1.added_this_tick = 0 ∧
    (pb.tick b dt).1.requested_this_tick = 0 ∧
    (pb.tick b dt).1.granted_this_tick = 0 ∧
    (pb.tick b dt).2 = b.chargeFromSurplus pb.available_power dt := by
  refine ⟨rfl, rfl, rfl, rfl, ?_⟩
  unfold PowerBus.tick
  by_cases h : 0 < pb.available_power
  · simp [h]
  · simp only [if_neg h]
    unfold Battery.chargeFromSurplus
    rw [if_pos (Or.inl (le_of_not_lt h))]

/-- C8: Battery::discharge delivers min(needed, max discharge rate, what the
charge can sustain over dt), subtracts the delivered energy with the charge
clamped to 0 or more, returns 0 for a non-positive request, and in the
concrete Scenario A a 100 W draw for one hour from a 500 Wh half-full battery
grants 100 W and leaves 400 Wh. -/
theorem battery_discharge_spec (b : Battery) (needed dt : ℚ) (hdt : 0 < dt) :
    (0 < needed →
      (b.discharge needed dt).1 =
        min needed (min b.max_discharge_rate_W (b.charge * 3600 / dt)) ∧
      (b.discharge needed dt).2.charge =
        max 0 (b.charge - (b.discharge needed dt).1 * dt / 3600) ∧
      (b.discharge needed dt).2.capacity = b.capacity ∧
      (b.discharge needed dt).2.max_charge_rate_W = b.max_charge_rate_W ∧
      (b.discharge needed dt).2.max_discharge_rate_W = b.max_discharge_rate_W) ∧
    (needed ≤ 0 → b.discharge needed dt = (0, b)) ∧
    (Battery.mk 1000 500 1600 1200).discharge 100 3600 =
      (100, Battery.mk 1000 400 1600 1200) := by
  refine ⟨?_, ?_, by norm_num [Battery.discharge, min_def, max_def]⟩
  · intro hpos
    have hcond : ¬ (needed ≤ 0 ∨ dt ≤ 0) := by
      push_neg
      exact ⟨hpos, hdt⟩
    unfold Battery.discharge
    rw [if_neg hcond]
    exact ⟨rfl, rfl, rfl, rfl, rfl⟩
  · intro hneg
    unfold Battery.discharge
    rw [if_pos (Or.inl hneg)]

/-- Witness for C8: Scenario A instantiated (dt one hour in seconds). -/
theorem battery_discharge_spec_witness :
    (0 < (100 : ℚ) →
      ((Battery.mk 1000 500 1600 1200).discharge 100 3600).1 =
        min 100 (min (Battery.mk 1000 500 1600 1200).max_discharge_rate_W
          ((Battery.mk 1000 500 1600 1200).charge * 3600 / 3600)) ∧
      ((Battery.mk 1000 500 1600 1200).discharge 100 3600).2.charge =
        max 0 ((Battery.mk 1000 500 1600 1200).charge -
          ((Battery.mk 1000 500 1600 1200).discharge 100 3600).1 * 3600 / 3600) ∧
      ((Battery.mk 1000 500 1600 1200).discharge 100 3600).2.capacity =
        (Battery.mk 1000 500 1600 1200).capacity ∧
      ((Battery.mk 1000 500 1600 1200).discharge 100 3600).2.max_charge_rate_W =
        (Battery.mk 1000 500 1600 1200).max_charge_rate_W ∧
      ((Battery.mk 1000 500 1600 1200).discharge 100 3600).2.max_discharge_rate_W =
        (Battery.mk 1000 500 1600 1200).max_discharge_rate_W) ∧
    ((100 : ℚ) ≤ 0 → (Battery.mk 1000 500 1600 1200).discharge 100 3600 =
      (0, Battery.mk 1000 500 1600 1200)) ∧
    (Battery.mk 1000 500 1600 1200).discharge 100 3600 =
      (100, Battery.mk 1000 400 1600 1200) :=
  battery_discharge_spec (Battery.mk 1000 500 1600 1200) 100 3600 (by norm_num)

/-! ## Theorems: RC thermal actuator (claim C9) -/

/-- Counterexample to C9 as stated: from 400 K (above the 300 K ambient) a
single applyHeat(0, dt) call with dt = 2000 s lands at 100 K, overshooting
past ambient, so the trajectory is not confined to the ambient side it
started on. -/
theorem applyHeat_overshoots_ambient :
    ((EffusionCell.mk 400 0 0).applyHeat 0 2000).temperature = 100 ∧
    ((EffusionCell.mk 400 0 0).applyHeat 0 2000).temperature < 300 ∧
    (300 : ℚ) < (EffusionCell.mk 400 0 0).temperature := by
  norm_num [EffusionCell.applyHeat, max_def]

/-- Helper: repeated applyHeat(0, dt) keeps the two reporting fields at zero,
so the iterated cell is determined by the temperature sequence coolIter. -/
theorem coolIter_cell (T0 dt : ℚ) (n : Nat) :
    (fun c => EffusionCell.applyHeat c 0 dt)^[n]
      { temperature := T0, last_heat_W := 0, heat_input_w := 0 } =
    { temperature := coolIter T0 dt n, last_heat_W := 0, heat_input_w := 0 } := by
  induction n with
  | zero => rfl
  | succ n ih =>
      have hsucc : coolIter T0 dt (n + 1) =
          (EffusionCell.applyHeat
            { temperature := coolIter T0 dt n, last_heat_W := 0, heat_input_w := 0 }
            0 dt).temperature := by
        unfold coolIter
        rw [Function.iterate_succ_apply', ih]
      rw [Function.iterate_succ_apply', ih, hsucc]
      simp [EffusionCell.applyHeat]

/-- Helper: one-step unfolding of the cooling temperature sequence. -/
theorem coolIter_succ (T0 dt : ℚ) (n : Nat) :
    coolIter T0 dt (n + 1) =
      (EffusionCell.applyHeat
        { temperature := coolIter T0 dt n, last_heat_W := 0, heat_input_w := 0 }
        0 dt).temperature := by
  unfold coolIter
  rw [Function.iterate_succ_apply', coolIter_cell]

/-- Helper: closed form of one applyHeat(0, dt) temperature update. -/
theorem coolStep_temperature (T dt : ℚ) :
    (EffusionCell.applyHeat
      { temperature := T, last_heat_W := 0, heat_input_w := 0 } 0 dt).temperature =
      (if T + ((0 - 3 / 2 * (T - 300)) / 1000) * max 0 dt < 0 then 0
       else T + ((0 - 3 / 2 * (T - 300)) / 1000) * max 0 dt) := by
  simp [EffusionCell.applyHeat, max_self]

/-- Helper: single-step bounds for the pure cooling update under the
stability condition h * dt at most C, that is 3 * dt at most 2000. -/
theorem coolStep_bounds (T dt : ℚ) (hdt : 0 < dt) (hC : 3 * dt ≤ 2000) :
    (300 ≤ T →
      300 ≤ (EffusionCell.applyHeat
          { temperature := T, last_heat_W := 0, heat_input_w := 0 } 0 dt).temperature ∧
      (EffusionCell.applyHeat
          { temperature := T, last_heat_W := 0, heat_input_w := 0 } 0 dt).temperature ≤ T) ∧
    (T ≤ 300 →
      T ≤ (EffusionCell.applyHeat
          { temperature := T, last_heat_W := 0, heat_input_w := 0 } 0 dt).temperature ∧
      (EffusionCell.applyHeat
          { temperature := T, last_heat_W := 0, heat_input_w := 0 } 0 dt).temperature ≤ 300) ∧
    0 ≤ (EffusionCell.applyHeat
        { temperature := T, last_heat_W := 0, heat_input_w := 0 } 0 dt).temperature := by
  rw [coolStep_temperature]
  rw [max_eq_right hdt.le]
  set t2 := T + ((0 - 3 / 2 * (T - 300)) / 1000) * dt with ht2
  refine ⟨?_, ?_, ?_⟩
  · intro h300
    have h1 : 300 ≤ t2 := by
      rw [ht2]
      nlinarith [mul_nonneg (sub_nonneg.mpr h300) (by linarith : (0:ℚ) ≤ 2000 - 3 * dt)]
    have h2 : t2 ≤ T := by
      rw [ht2]
      nlinarith [mul_nonneg (sub_nonneg.mpr h300) hdt.le]
    rw [if_neg (by linarith : ¬ t2 < 0)]
    exact ⟨h1, h2⟩
  · intro h300
    have h1 : T ≤ t2 := by
      rw [ht2]
      nlinarith [mul_nonneg (sub_nonneg.mpr h300) hdt.le]
    have h2 : t2 ≤ 300 := by
      rw [ht2]
      nlinarith [mul_nonneg (sub_nonneg.mpr h300) (by linarith : (0:ℚ) ≤ 2000 - 3 * dt)]
    by_cases hneg : t2 < 0
    · rw [if_pos hneg]
      constructor
      · linarith
      · norm_num
    · rw [if_neg hneg]
      exact ⟨h1, h2⟩
  · by_cases hneg : t2 < 0
    · rw [if_pos hneg]
    · rw [if_neg hneg]
      linarith [not_lt.mp hneg]

/-- Helper: the cooling sequence stays on the side of ambient it starts on,
and below ambient it never drops under its start. -/
theorem coolIter_invariant (T0 dt : ℚ) (hdt : 0 < dt) (hC : 3 * dt ≤ 2000) :
    ∀ n, (300 ≤ T0 → 300 ≤ coolIter T0 dt n) ∧
      (T0 ≤ 300 → coolIter T0 dt n ≤ 300 ∧ T0 ≤ coolIter T0 dt n) := by
  intro n
  induction n with
  | zero =>
      constructor
      · intro h; simpa [coolIter] using h
      · intro h; refine ⟨by simpa [coolIter] using h, by simp [coolIter]⟩
  | succ n ih =>
      rw [coolIter_succ]
      constructor
      · intro h
        exact ((coolStep_bounds (coolIter T0 dt n) dt hdt hC).1 (ih.1 h)).1
      · intro h
        refine ⟨((coolStep_bounds (coolIter T0 dt n) dt hdt hC).2.1 (ih.2 h).1).2, ?_⟩
        exact le_trans (ih.2 h).2 ((coolStep_bounds (coolIter T0 dt n) dt hdt hC).2.1 (ih.2 h).1).1

/-- Helper: the clamp in applyHeat makes one cooling step non-negative for
every step size, with no stability bound. -/
theorem coolStep_nonneg (T dt : ℚ) :
    0 ≤ (EffusionCell.applyHeat
      { temperature := T, last_heat_W := 0, heat_input_w := 0 } 0 dt).temperature := by
  rw [coolStep_temperature]
  split_ifs with h
  · exact le_refl 0
  · exact not_lt.mp h

/-- C9 amended: for 0 < dt, whenever additionally h * dt is at most C
(3 * dt at most 2000, that is dt at most about 666.7 s) repeated
applyHeat(0, dt) moves the temperature monotonically toward the 300 K
ambient without ever crossing it; and for every dt > 0, with no step-size
bound, the temperature never becomes negative.  Without the step-size bound
the monotone no-overshoot part is refuted by the overshoot
counterexample. -/
theorem applyHeat_cooling_amended (T0 dt : ℚ) (n : Nat) (hdt : 0 < dt) :
    (3 * dt ≤ 2000 →
      (300 ≤ T0 → 300 ≤ coolIter T0 dt n ∧ coolIter T0 dt (n + 1) ≤ coolIter T0 dt n) ∧
      (T0 ≤ 300 → coolIter T0 dt n ≤ 300 ∧ coolIter T0 dt n ≤ coolIter T0 dt (n + 1))) ∧
    0 ≤ coolIter T0 dt (n + 1) ∧ (0 ≤ T0 → 0 ≤ coolIter T0 dt n) := by
  refine ⟨?_, ?_, ?_⟩
  · intro hC
    have hinv := coolIter_invariant T0 dt hdt hC
    constructor
    · intro h
      refine ⟨(hinv n).1 h, ?_⟩
      rw [coolIter_succ]
      exact ((coolStep_bounds (coolIter T0 dt n) dt hdt hC).1 ((hinv n).1 h)).2
    · intro h
      refine ⟨((hinv n).2 h).1, ?_⟩
      rw [coolIter_succ]
      exact ((coolStep_bounds (coolIter T0 dt n) dt hdt hC).2.1 ((hinv n).2 h).1).1
  · rw [coolIter_succ]
    exact coolStep_nonneg (coolIter T0 dt n) dt
  · intro h0
    cases n with
    | zero => simpa [coolIter] using h0
    | succ n =>
        rw [coolIter_succ]
        exact coolStep_nonneg (coolIter T0 dt n) dt

/-- Witness for the amended C9 theorem at T0 = 400 K, dt = 1 s, n = 2. -/
theorem applyHeat_cooling_amended_witness :
    (3 * (1 : ℚ) ≤ 2000 →
      (300 ≤ (400 : ℚ) → 300 ≤ coolIter 400 1 2 ∧ coolIter 400 1 (2 + 1) ≤ coolIter 400 1 2) ∧
      ((400 : ℚ) ≤ 300 → coolIter 400 1 2 ≤ 300 ∧ coolIter 400 1 2 ≤ coolIter 400 1 (2 + 1))) ∧
    0 ≤ coolIter 400 1 (2 + 1) ∧ (0 ≤ (400 : ℚ) → 0 ≤ coolIter 400 1 2) :=
  applyHeat_cooling_amended 400 1 2 (by norm_num)

/-! ## Theorems: active-job selection (claim C7) and shared selection facts -/

/-- Helper: characterization of the selection scan returning index i when
started at absolute offset d. -/
theorem selectJobAux_eq_some (abt : List Bool) (tick : Int) :
    ∀ (js : List MJob) (d i : Nat),
      selectJobAux abt tick js d = some i ↔
        ∃ m j, js.get? m = some j ∧ i = d + m ∧
          (abt.getD i false = false ∧ j.start_tick ≤ tick ∧ tick ≤ j.end_tick) ∧
          ∀ m2 j2, m2 < m → js.get? m2 = some j2 →
            ¬ (abt.getD (d + m2) false = false ∧
                j2.start_tick ≤ tick ∧ tick ≤ j2.end_tick) := by
  intro js
  induction js with
  | nil =>
      intro d i
      simp [selectJobAux]
  | cons j rest ih =>
      intro d i
      by_cases h : abt.getD d false = false ∧ j.start_tick ≤ tick ∧ tick ≤ j.end_tick
      · simp only [selectJobAux, if_pos h]
        constructor
        · intro heq
          obtain rfl : d = i := Option.some.inj heq
          refine ⟨0, j, rfl, by omega, by simpa using h, ?_⟩
          intro m2 j2 hm2
          omega
        · rintro ⟨m, j2, hget, hi, hmatch, hmin⟩
          cases m with
          | zero =>
              have : i = d := by omega
              rw [this]
          | succ m =>
              exfalso
              exact (hmin 0 j (Nat.succ_pos m) rfl) (by simpa using h)
      · simp only [selectJobAux, if_neg h]
        rw [ih (d + 1) i]
        constructor
        · rintro ⟨m, j2, hget, hi, hmatch, hmin⟩
          refine ⟨m + 1, j2, by simpa using hget, by omega, hmatch, ?_⟩
          intro m2 j3 hm2 hget2
          cases m2 with
          | zero =>
              have hj3 : j = j3 := by simpa using hget2
              subst hj3
              simpa using h
          | succ m2 =>
              rw [show d + (m2 + 1) = (d + 1) + m2 from by omega]
              exact hmin m2 j3 (by omega) (by simpa using hget2)
        · rintro ⟨m, j2, hget, hi, hmatch, hmin⟩
          cases m with
          | zero =>
              exfalso
              have hj2 : j = j2 := by simpa using hget
              subst hj2
              have hd : i = d := by omega
              rw [hd] at hmatch
              exact h hmatch
          | succ m =>
              refine ⟨m, j2, by simpa using hget, by omega, hmatch, ?_⟩
              intro m2 j3 hm2 hget3
              rw [show (d + 1) + m2 = d + (m2 + 1) from by omega]
              exact hmin (m2 + 1) j3 (by omega) (by simpa using hget3)

/-- Helper: characterization of the selection scan failing from offset d. -/
theorem selectJobAux_eq_none (abt : List Bool) (tick : Int) :
    ∀ (js : List MJob) (d : Nat),
      selectJobAux abt tick js d = none ↔
        ∀ m j, js.get? m = some j →
          ¬ (abt.getD (d + m) false = false ∧
              j.start_tick ≤ tick ∧ tick ≤ j.end_tick) := by
  intro js
  induction js with
  | nil =>
      intro d
      simp [selectJobAux]
  | cons j rest ih =>
      intro d
      by_cases h : abt.getD d false = false ∧ j.start_tick ≤ tick ∧ tick ≤ j.end_tick
      · simp only [selectJobAux, if_pos h]
        constructor
        · intro heq
          exact absurd heq (by simp)
        · intro hall
          exact absurd (by simpa using h) (hall 0 j rfl)
      · simp only [selectJobAux, if_neg h]
        rw [ih (d + 1)]
        constructor
        · intro hall m j2 hget
          cases m with
          | zero =>
              have hj2 : j = j2 := by simpa using hget
              subst hj2
              simpa using h
          | succ m =>
              rw [show d + (m + 1) = (d + 1) + m from by omega]
              exact hall m j2 (by simpa using hget)
        · intro hall m j2 hget
          rw [show (d + 1) + m = d + (m + 1) from by omega]
          exact hall (m + 1) j2 (by simpa using hget)

/-- C7: for every tick the scheduler selects the first (lowest-index)
non-aborted job whose inclusive window contains the tick, and selects no job
exactly when no job qualifies. -/
theorem selectJob_first_match (jobs : List MJob) (abt : List Bool) (tick : Int) :
    (∀ i, selectJob jobs abt tick = some i ↔
        Eligible jobs abt tick i ∧ ∀ k, k < i → ¬ Eligible jobs abt tick k) ∧
    (selectJob jobs abt tick = none ↔ ∀ k, ¬ Eligible jobs abt tick k) := by
  constructor
  · intro i
    unfold selectJob
    rw [selectJobAux_eq_some abt tick jobs 0 i]
    unfold Eligible
    constructor
    · rintro ⟨m, j, hget, hi, hmatch, hmin⟩
      have him : i = m := by omega
      subst him
      refine ⟨⟨hmatch.1, j, hget, hmatch.2⟩, ?_⟩
      rintro k hk ⟨habk, j2, hget2, hw⟩
      exact hmin k j2 (by omega) hget2 ⟨by simpa using habk, hw⟩
    · rintro ⟨⟨hab, j, hget, hw⟩, hmin⟩
      refine ⟨i, j, hget, by omega, ⟨hab, hw⟩, ?_⟩
      intro m2 j2 hm2 hget2 hmatch2
      exact hmin m2 (by omega) ⟨by simpa using hmatch2.1, j2, hget2, hmatch2.2⟩
  · unfold selectJob
    rw [selectJobAux_eq_none abt tick jobs 0]
    unfold Eligible
    constructor
    · rintro hall k ⟨hab, j, hget, hw⟩
      exact hall k j hget ⟨by simpa using hab, hw⟩
    · intro hall m j hget hmatch
      exact hall m ⟨by simpa using hmatch.1, j, hget, hmatch.2⟩

/-- Helper: a selected job index is in range and not marked aborted. -/
theorem selectJob_some_facts (jobs : List MJob) (abt : List Bool) (tick : Int)
    (i : Nat) (h : selectJob jobs abt tick = some i) :
    abt.getD i false = false ∧ i < jobs.length := by
  unfold selectJob at h
  rw [selectJobAux_eq_some abt tick jobs 0 i] at h
  obtain ⟨m, j, hget, hi, hmatch, -⟩ := h
  have him : i = m := by omega
  subst him
  refine ⟨hmatch.1, ?_⟩
  by_contra hlen
  push_neg at hlen
  rw [List.get?_eq_none.mpr hlen] at hget
  exact absurd hget (by simp)

/-- Helper: an aborted index is never selected. -/
theorem selectJob_ne_of_aborted (jobs : List MJob) (abt : List Bool) (tick : Int)
    (i : Nat) (h : abt.getD i false = true) :
    selectJob jobs abt tick ≠ some i := by
  intro hsel
  have := (selectJob_some_facts jobs abt tick i hsel).1
  rw [h] at this
  exact absurd this (by simp)

/-! ## Theorems: compliance gate state machine (claim C1) -/

/-- Helper: reading the entry written by set. -/
theorem getD_set_self (l : List Bool) (i : Nat) (v : Bool) (h : i < l.length) :
    (l.set i v).getD i false = v := by
  rw [List.getD_eq_getD_get?, List.get?_set_eq_of_lt v h]
  rfl

/-- Helper: set at another index leaves a getD view unchanged. -/
theorem getD_set_ne (l : List Bool) (k i : Nat) (v d : Bool) (h : k ≠ i) :
    (l.set k v).getD i d = l.getD i d := by
  rw [List.getD_eq_getD_get?, List.get?_set_ne v l h, ← List.getD_eq_getD_get?]

/-- Helper: a replicate of false reads false everywhere. -/
theorem getD_replicate_false (n i : Nat) :
    (List.replicate n false).getD i false = false := by
  induction n generalizing i with
  | zero => rfl
  | succ n ih =>
      cases i with
      | zero => rfl
      | succ i => simpa [List.replicate] using ih i

/-- Helper: when the selected job is unchanged, the leader tick reduces to
one health-gate evaluation with the tick counter incremented. -/
theorem tickStep_active (jobs : List MJob) (dt P : ℚ) (tick : Int) (s : LoopState)
    (i : Nat) (j : MJob)
    (hsel : selectJob jobs s.jobAborted tick = some i)
    (hcur : s.curIdx = some i)
    (hj : jobs.get? i = some j) :
    tickStep jobs dt P tick s =
      (activeStep dt P i j s.jobAborted s.underflux_streak s.temp_miss_streak
        (s.job_tick_counter + 1) s.temp_proxy, s.job_failed_flag) := by
  have hj2 : jobs[i]? = some j := by
    rw [← List.get?_eq_getElem?]
    exact hj
  simp [tickStep, hsel, hcur, hj2]

/-- C1: for an active job with the gates evaluated (heater demand above the
1e-6 W cutoff), while still inside the warm-up window both streaks are pinned
at zero and nothing is aborted, and once armed a failing tick on an axis
increments that axis streak, the abort fires exactly when a streak reaches
the limit 5 and never below it, and a passing tick resets that axis streak
to zero. -/
theorem compliance_gate_step (jobs : List MJob) (dt P : ℚ) (tick : Int)
    (s : LoopState) (i : Nat) (j : MJob)
    (hsel : selectJob jobs s.jobAborted tick = some i)
    (hcur : s.curIdx = some i)
    (hj : jobs.get? i = some j)
    (hlen : s.jobAborted.length = jobs.length)
    (hd : (1 / 1000000 : ℚ) < j.heater_W) :
    GateStepClaim jobs dt P tick s i j := by
  have habt : s.jobAborted.getD i false = false := (selectJob_some_facts _ _ _ _ hsel).1
  have hilen : i < s.jobAborted.length := by
    rw [hlen]
    exact (selectJob_some_facts _ _ _ _ hsel).2
  have hpos : (0 : ℚ) < j.heater_W := lt_trans (by norm_num) hd
  unfold GateStepClaim
  rw [tickStep_active jobs dt P tick s i j hsel hcur hj]
  simp only [activeStep, if_pos hd, if_pos hpos]
  constructor
  · intro hwu
    have harm : ¬ (j.warmup < s.job_tick_counter + 1 ∧ (310 : ℚ) < j.target_T) := by
      rintro ⟨h1, -⟩
      omega
    rw [if_neg harm, if_neg harm]
    have hcond : ¬ ((5 ≤ (0 : Nat) ∨
        ((j.warmup < s.job_tick_counter + 1 ∧ (310 : ℚ) < j.target_T) ∧ 5 ≤ (0 : Nat))) ∧
        i < s.jobAborted.length ∧ s.jobAborted.getD i false = false) := by
      rintro ⟨h5 | ⟨hc, -⟩, -⟩
      · omega
      · exact harm hc
    rw [if_neg hcond]
    exact ⟨rfl, rfl, rfl⟩
  · intro h1 h2
    have harm : j.warmup < s.job_tick_counter + 1 ∧ (310 : ℚ) < j.target_T := ⟨h1, h2⟩
    rw [if_pos harm, if_pos harm]
    refine ⟨?_, ?_, ?_, ?_⟩
    · intro huf htmc
      have hcond : ¬ ((5 ≤ (if P / j.heater_W < 99 / 100 then s.underflux_streak + 1 else 0) ∨
          ((j.warmup < s.job_tick_counter + 1 ∧ (310 : ℚ) < j.target_T) ∧
            5 ≤ (if (if s.temp_proxy + ((P - 3 / 2 * (s.temp_proxy - 300)) / 1000) * dt < 0
                    then 0
                    else s.temp_proxy + ((P - 3 / 2 * (s.temp_proxy - 300)) / 1000) * dt) /
                   j.target_T < 19 / 20
                 then s.temp_miss_streak + 1 else 0))) ∧
          i < s.jobAborted.length ∧ s.jobAborted.getD i false = false) := by
        rintro ⟨h5 | ⟨-, h5⟩, -⟩
        · omega
        · omega
      rw [if_neg hcond]
      exact ⟨rfl, rfl, rfl, rfl⟩
    · intro hge
      have hcond : ((5 ≤ (if P / j.heater_W < 99 / 100 then s.underflux_streak + 1 else 0) ∨
          ((j.warmup < s.job_tick_counter + 1 ∧ (310 : ℚ) < j.target_T) ∧
            5 ≤ (if (if s.temp_proxy + ((P - 3 / 2 * (s.temp_proxy - 300)) / 1000) * dt < 0
                    then 0
                    else s.temp_proxy + ((P - 3 / 2 * (s.temp_proxy - 300)) / 1000) * dt) /
                   j.target_T < 19 / 20
                 then s.temp_miss_streak + 1 else 0))) ∧
          i < s.jobAborted.length ∧ s.jobAborted.getD i false = false) := by
        refine ⟨?_, hilen, habt⟩
        rcases hge with h | h
        · exact Or.inl h
        · exact Or.inr ⟨harm, h⟩
      rw [if_pos hcond]
      exact ⟨getD_set_self s.jobAborted i true hilen, rfl⟩
    · intro hnf
      rw [if_neg hnf]
      split_ifs <;> rfl
    · intro hnt
      rw [if_neg hnt]
      split_ifs <;> rfl

/-- Witness for C1: the gate-step property instantiated on the concrete
armed job of jobsCex at tick 5 with streaks 3 and 2. -/
theorem compliance_gate_step_witness :
    GateStepClaim jobsCex 1 0 5 stGate 0 jobCex :=
  compliance_gate_step jobsCex 1 0 5 stGate 0 jobCex rfl rfl rfl rfl
    (by norm_num [jobCex])

/-! ## Structural step lemmas shared by the run-level claims -/

/-- Helper: setting an entry to true preserves every true reading. -/
theorem getD_set_true (l : List Bool) (k i : Nat) (h : l.getD i false = true) :
    (l.set k true).getD i false = true := by
  induction l generalizing k i with
  | nil => simpa using h
  | cons a t ih =>
      cases k with
      | zero =>
          cases i with
          | zero => rfl
          | succ i => simpa using h
      | succ k =>
          cases i with
          | zero => simpa using h
          | succ i => simpa using ih k i (by simpa using h)

/-- Helper: a tick with no selectable job clears the temp streak and the
active pointer and leaves the abort table unchanged. -/
theorem tickStep_none_facts (jobs : List MJob) (dt P : ℚ) (tick : Int)
    (s : LoopState) (hsel : selectJob jobs s.jobAborted tick = none) :
    (tickStep jobs dt P tick s).1.jobAborted = s.jobAborted ∧
    (tickStep jobs dt P tick s).1.curIdx = none ∧
    (tickStep jobs dt P tick s).1.job_failed_flag = false ∧
    (tickStep jobs dt P tick s).2 = s.job_failed_flag := by
  unfold tickStep
  rw [hsel]
  exact ⟨rfl, rfl, rfl, rfl⟩

/-- Helper: the snapshot row of a tick always carries the flag the state had
when the engine row was logged. -/
theorem tickStep_row (jobs : List MJob) (dt P : ℚ) (tick : Int) (s : LoopState) :
    (tickStep jobs dt P tick s).2 = s.job_failed_flag := by
  unfold tickStep
  cases hsel : selectJob jobs s.jobAborted tick <;> rfl

/-- Helper: a tick that selects job k runs one gate evaluation; the counters
passed in are the current ones when the job is unchanged, reset otherwise. -/
theorem tickStep_some_eq (jobs : List MJob) (dt P : ℚ) (tick : Int)
    (s : LoopState) (k : Nat)
    (hsel : selectJob jobs s.jobAborted tick = some k) :
    tickStep jobs dt P tick s =
      (activeStep dt P k ((jobs.get? k).getD mjobIdle) s.jobAborted
        (if some k = s.curIdx then s.underflux_streak else 0)
        (if some k = s.curIdx then s.temp_miss_streak else 0)
        ((if some k = s.curIdx then s.job_tick_counter else 0) + 1)
        (if some k = s.curIdx then s.temp_proxy else 300),
       s.job_failed_flag) := by
  unfold tickStep
  rw [hsel]

/-- Helper: existential form of the previous lemma with the one fact the
run-level invariants need about the passed under-flux streak. -/
theorem tickStep_some_ex (jobs : List MJob) (dt P : ℚ) (tick : Int)
    (s : LoopState) (k : Nat)
    (hsel : selectJob jobs s.jobAborted tick = some k) :
    ∃ uf tm jtc proxy,
      (tickStep jobs dt P tick s).1 =
        activeStep dt P k ((jobs.get? k).getD mjobIdle) s.jobAborted uf tm jtc proxy ∧
      (uf = s.underflux_streak ∧ s.curIdx = some k ∨ uf = 0) := by
  refine ⟨if some k = s.curIdx then s.underflux_streak else 0,
    if some k = s.curIdx then s.temp_miss_streak else 0,
    (if some k = s.curIdx then s.job_tick_counter else 0) + 1,
    if some k = s.curIdx then s.temp_proxy else 300, ?_, ?_⟩
  · rw [tickStep_some_eq jobs dt P tick s k hsel]
  · by_cases hsame : some k = s.curIdx
    · exact Or.inl ⟨if_pos hsame, hsame.symm⟩
    · exact Or.inr (if_neg hsame)

/-- Helper: every gate evaluation either leaves the abort table alone with
the job still active and no failure flag, or aborts: it marks the previously
unmarked in-range index, clears the active job, and raises the flag. -/
theorem activeStep_cases (dt P : ℚ) (k : Nat) (j : MJob) (abt : List Bool)
    (uf tm jtc : Nat) (proxy : ℚ) :
    ((activeStep dt P k j abt uf tm jtc proxy).jobAborted = abt ∧
      (activeStep dt P k j abt uf tm jtc proxy).curIdx = some k ∧
      (activeStep dt P k j abt uf tm jtc proxy).job_failed_flag = false) ∨
    ((activeStep dt P k j abt uf tm jtc proxy).jobAborted = abt.set k true ∧
      (activeStep dt P k j abt uf tm jtc proxy).curIdx = none ∧
      (activeStep dt P k j abt uf tm jtc proxy).job_failed_flag = true ∧
      k < abt.length ∧ abt.getD k false = false) := by
  unfold activeStep
  dsimp only
  split_ifs <;>
    first
      | exact Or.inl ⟨rfl, rfl, rfl⟩
      | exact Or.inr ⟨rfl, rfl, rfl,
          And.left (And.right ‹_ ∧ k < abt.length ∧ abt.getD k false = false›),
          And.right (And.right ‹_ ∧ k < abt.length ∧ abt.getD k false = false›)⟩

/-- Helper: with a target at most 310 K the armed condition fails, so the
gate evaluation never aborts, pins the temperature streak at zero and can
only keep or clear the under-flux streak. -/
theorem activeStep_low_target (dt P : ℚ) (k : Nat) (j : MJob) (abt : List Bool)
    (uf tm jtc : Nat) (proxy : ℚ) (hlow : j.target_T ≤ 310) :
    (activeStep dt P k j abt uf tm jtc proxy).jobAborted = abt ∧
    (activeStep dt P k j abt uf tm jtc proxy).curIdx = some k ∧
    (activeStep dt P k j abt uf tm jtc proxy).temp_miss_streak = 0 ∧
    ((activeStep dt P k j abt uf tm jtc proxy).underflux_streak = 0 ∨
      (activeStep dt P k j abt uf tm jtc proxy).underflux_streak = uf) := by
  have harm : ¬ (j.warmup < jtc ∧ (310 : ℚ) < j.target_T) := by
    rintro ⟨-, h2⟩
    linarith
  unfold activeStep
  by_cases hdmd : (1 / 1000000 : ℚ) < j.heater_W
  · rw [if_pos hdmd]
    dsimp only
    rw [if_neg harm, if_neg harm]
    have hcond : ¬ ((5 ≤ (0 : Nat) ∨
        ((j.warmup < jtc ∧ (310 : ℚ) < j.target_T) ∧ 5 ≤ (0 : Nat))) ∧
        k < abt.length ∧ abt.getD k false = false) := by
      rintro ⟨h5 | ⟨hc, -⟩, -⟩
      · omega
      · exact harm hc
    rw [if_neg hcond]
    exact ⟨rfl, rfl, rfl, Or.inl rfl⟩
  · rw [if_neg hdmd]
    exact ⟨rfl, rfl, rfl, Or.inr rfl⟩

/-! ## Theorems: low-target jobs never arm the gates (claim C10) -/

/-- C10: a job whose derived target temperature is at most 310 K never has
its gates armed: on every tick of every run its streaks are zero whenever it
is the active job, and it is never aborted, regardless of delivery. -/
theorem low_target_never_aborts (jobs : List MJob) (dt : ℚ) (P : Nat → ℚ)
    (i : Nat) (j : MJob) (hj : jobs.get? i = some j) (hlow : j.target_T ≤ 310) :
    ∀ n, LowTargetSafe jobs dt P i n := by
  intro n
  induction n with
  | zero =>
      constructor
      · exact getD_replicate_false jobs.length i
      · intro h
        exact absurd h (by simp [runState, initLoopState])
  | succ n ih =>
      obtain ⟨ihab, ihstreak⟩ := ih
      have hrun : runState jobs dt P (n + 1) =
          (tickStep jobs dt (P (n + 1)) ((n + 1 : Nat) : Int) (runState jobs dt P n)).1 := rfl
      cases hsel : selectJob jobs (runState jobs dt P n).jobAborted ((n + 1 : Nat) : Int) with
      | none =>
          obtain ⟨hab, hcur, -, -⟩ :=
            tickStep_none_facts jobs dt (P (n + 1)) ((n + 1 : Nat) : Int)
              (runState jobs dt P n) hsel
          constructor
          · show (runState jobs dt P (n + 1)).jobAborted.getD i false = false
            rw [hrun, hab]
            exact ihab
          · intro hc
            rw [hrun, hcur] at hc
            exact absurd hc (by simp)
      | some k =>
          obtain ⟨uf, tm, jtc, px, heq, hufc⟩ :=
            tickStep_some_ex jobs dt (P (n + 1)) ((n + 1 : Nat) : Int)
              (runState jobs dt P n) k hsel
          by_cases hk : k = i
          · rw [hk] at heq hufc
            have hjk : (jobs.get? i).getD mjobIdle = j := by
              rw [hj]
              rfl
            rw [hjk] at heq
            have hlt := activeStep_low_target dt (P (n + 1)) i j
              (runState jobs dt P n).jobAborted uf tm jtc px hlow
            have huf0 : uf = 0 := by
              rcases hufc with ⟨hufeq, hcureq⟩ | h0
              · rw [hufeq]
                exact (ihstreak hcureq).1
              · exact h0
            constructor
            · show (runState jobs dt P (n + 1)).jobAborted.getD i false = false
              rw [hrun, heq, hlt.1]
              exact ihab
            · intro hc
              constructor
              · show (runState jobs dt P (n + 1)).underflux_streak = 0
                rw [hrun, heq]
                rcases hlt.2.2.2 with h0 | hufv
                · exact h0
                · rw [hufv]
                  exact huf0
              · show (runState jobs dt P (n + 1)).temp_miss_streak = 0
                rw [hrun, heq]
                exact hlt.2.2.1
          · rcases activeStep_cases dt (P (n + 1)) k ((jobs.get? k).getD mjobIdle)
                (runState jobs dt P n).jobAborted uf tm jtc px
              with ⟨hab, hcur, -⟩ | ⟨hab, hcur, -, -, -⟩
            · constructor
              · show (runState jobs dt P (n + 1)).jobAborted.getD i false = false
                rw [hrun, heq, hab]
                exact ihab
              · intro hc
                rw [hrun, heq, hcur] at hc
                exact absurd (Option.some.inj hc) hk
            · constructor
              · show (runState jobs dt P (n + 1)).jobAborted.getD i false = false
                rw [hrun, heq, hab, getD_set_ne _ _ _ _ _ hk]
                exact ihab
              · intro hc
                rw [hrun, heq, hcur] at hc
                exact absurd hc (by simp)

/-! ## Theorems: abort is terminal (claim C6) -/

/-- Helper: one tick can never clear an abort mark, and the tick after the
mark never ends with that index active. -/
theorem tickStep_preserves_aborted (jobs : List MJob) (dt P : ℚ) (tick : Int)
    (s : LoopState) (i : Nat) (h : s.jobAborted.getD i false = true) :
    (tickStep jobs dt P tick s).1.jobAborted.getD i false = true ∧
    (tickStep jobs dt P tick s).1.curIdx ≠ some i := by
  cases hsel : selectJob jobs s.jobAborted tick with
  | none =>
      obtain ⟨hab, hcur, -, -⟩ := tickStep_none_facts jobs dt P tick s hsel
      rw [hab, hcur]
      exact ⟨h, by simp⟩
  | some k =>
      have hk : k ≠ i := by
        intro hki
        subst hki
        have hfacts := (selectJob_some_facts jobs s.jobAborted tick k hsel).1
        rw [h] at hfacts
        exact absurd hfacts (by simp)
      obtain ⟨uf, tm, jtc, px, heq, -⟩ := tickStep_some_ex jobs dt P tick s k hsel
      rw [heq]
      rcases activeStep_cases dt P k ((jobs.get? k).getD mjobIdle) s.jobAborted uf tm jtc px
        with ⟨hab, hcur, -⟩ | ⟨hab, hcur, -, -, -⟩
      · rw [hab, hcur]
        exact ⟨h, fun hc => hk (Option.some.inj hc)⟩
      · rw [hab, hcur]
        exact ⟨getD_set_true _ _ _ h, by simp⟩

/-- C6: job abortion is terminal: once an index is marked aborted the mark
persists for the rest of the run, the scheduler never again selects that
index at any tick, and the index is never the active job afterwards. -/
theorem abort_terminal (jobs : List MJob) (dt : ℚ) (P : Nat → ℚ)
    (i n m : Nat) (hnm : n ≤ m)
    (h : (runState jobs dt P n).jobAborted.getD i false = true) :
    (runState jobs dt P m).jobAborted.getD i false = true ∧
    (∀ tick, selectJob jobs (runState jobs dt P m).jobAborted tick ≠ some i) ∧
    (n < m → (runState jobs dt P m).curIdx ≠ some i) := by
  induction m, hnm using Nat.le_induction with
  | base =>
      exact ⟨h, fun t => selectJob_ne_of_aborted _ _ _ _ h,
        fun hlt => absurd hlt (lt_irrefl n)⟩
  | succ m hnm ih =>
      obtain ⟨ihab, -, -⟩ := ih
      have hstep := tickStep_preserves_aborted jobs dt (P (m + 1))
        ((m + 1 : Nat) : Int) (runState jobs dt P m) i ihab
      exact ⟨hstep.1, fun t => selectJob_ne_of_aborted _ _ _ _ hstep.1,
        fun hlt => hstep.2⟩

/-! ## Theorems: the job-failed snapshot flag (claim C2) -/

/-- Helper: after a tick the engine flag is raised exactly when that tick's
gate evaluation changed the abort table. -/
theorem tickStep_flag_iff (jobs : List MJob) (dt P : ℚ) (tick : Int)
    (s : LoopState) :
    ((tickStep jobs dt P tick s).1.job_failed_flag = true ↔
      (tickStep jobs dt P tick s).1.jobAborted ≠ s.jobAborted) := by
  cases hsel : selectJob jobs s.jobAborted tick with
  | none =>
      obtain ⟨hab, -, hflag, -⟩ := tickStep_none_facts jobs dt P tick s hsel
      rw [hab, hflag]
      simp
  | some k =>
      obtain ⟨uf, tm, jtc, px, heq, -⟩ := tickStep_some_ex jobs dt P tick s k hsel
      rw [heq]
      rcases activeStep_cases dt P k ((jobs.get? k).getD mjobIdle) s.jobAborted uf tm jtc px
        with ⟨hab, -, hflag⟩ | ⟨hab, -, hflag, hlen, hfalse⟩
      · rw [hab, hflag]
        simp
      · rw [hab, hflag]
        have hne : s.jobAborted.set k true ≠ s.jobAborted := by
          intro hcontra
          have h1 : (s.jobAborted.set k true).getD k false = true :=
            getD_set_self _ _ _ hlen
          rw [hcontra, hfalse] at h1
          exact absurd h1 (by simp)
        simp [hne]

/-- C2 amended: the job-failed flag of the system snapshot row for tick n+2
is 1.0 exactly when an abort fired during tick n+1; an abort during tick T
therefore shows up in the row of tick T+1, not in the row of tick T, and is
cleared again afterwards unless a new abort fires. -/
theorem jobFailed_row_semantics (jobs : List MJob) (dt : ℚ) (P : Nat → ℚ)
    (n : Nat) :
    (rowJobFailed jobs dt P (n + 2) = true ↔
      (runState jobs dt P (n + 1)).jobAborted ≠ (runState jobs dt P n).jobAborted) := by
  have hrow : rowJobFailed jobs dt P (n + 2) =
      (runState jobs dt P (n + 1)).job_failed_flag :=
    tickStep_row jobs dt (P (n + 2)) ((n + 2 : Nat) : Int) (runState jobs dt P (n + 1))
  rw [hrow]
  exact tickStep_flag_iff jobs dt (P (n + 1)) ((n + 1 : Nat) : Int) (runState jobs dt P n)

/-- Counterexample to C2 as stated: in the concrete starved run of jobsCex
the single job is aborted during tick 5 (the abort table flips between the
states after tick 4 and tick 5), yet the snapshot row of tick 5 carries
job_failed = 0.0; the flag appears in the row of tick 6 and clears in the
row of tick 7, because the engine logs and clears the flag before the health
evaluation of the same tick runs. -/
theorem jobFailed_row_counterexample :
    (runState jobsCex 1 Pzero 5).jobAborted.getD 0 false = true ∧
    (runState jobsCex 1 Pzero 4).jobAborted.getD 0 false = false ∧
    rowJobFailed jobsCex 1 Pzero 5 = false ∧
    rowJobFailed jobsCex 1 Pzero 6 = true ∧
    rowJobFailed jobsCex 1 Pzero 7 = false := by
  norm_num [runState, rowJobFailed, tickStep, activeStep, selectJob, selectJobAux,
    initLoopState, jobsCex, Pzero, mjobIdle]

/-- Witness for C6: in the starved run of jobsCex the job aborted at tick 5
stays aborted at tick 7, is never selected again, and is no longer active. -/
theorem abort_terminal_witness :
    (runState jobsCex 1 Pzero 7).jobAborted.getD 0 false = true ∧
    (∀ tick, selectJob jobsCex (runState jobsCex 1 Pzero 7).jobAborted tick ≠ some 0) ∧
    (5 < 7 → (runState jobsCex 1 Pzero 7).curIdx ≠ some 0) :=
  abort_terminal jobsCex 1 Pzero 0 5 7 (by norm_num)
    (by norm_num [runState, tickStep, activeStep, selectJob, selectJobAux,
      initLoopState, jobsCex, Pzero, mjobIdle])

/-- Witness for C10: the 300 K-target job of jobsLow is safe after two ticks
of a fully starved run. -/
theorem low_target_never_aborts_witness : LowTargetSafe jobsLow 1 Pzero 0 2 :=
  low_target_never_aborts jobsLow 1 Pzero 0 jobLow rfl (by norm_num [jobLow]) 2

/-! ## Theorems: warm-up tick estimation (claim C5) -/

/-- Helper: for positive flux the mapped heater power lies in \[120, 180]. -/
theorem fluxToHeaterPower_bounds (F : ℝ) (h : ¬ F ≤ 0) :
    120 ≤ fluxToHeaterPower F ∧ fluxToHeaterPower F ≤ 180 := by
  have key : ∀ x : ℝ, 5e13 ≤ x → x ≤ 1e14 →
      120 ≤ 120 + (x - 5e13) / (1e14 - 5e13) * (180 - 120) ∧
        120 + (x - 5e13) / (1e14 - 5e13) * (180 - 120) ≤ 180 := by
    intro x hx1 hx2
    have hden : (0 : ℝ) < 1e14 - 5e13 := by norm_num
    have h0 : 0 ≤ (x - 5e13) / (1e14 - 5e13) := div_nonneg (by linarith) hden.le
    have h1 : (x - 5e13) / (1e14 - 5e13) ≤ 1 := by
      rw [div_le_one hden]
      linarith
    constructor <;> nlinarith
  unfold fluxToHeaterPower
  rw [if_neg h]
  dsimp only
  set G := (if 1e14 < (if F < 5e13 then (5e13 : ℝ) else F) then (1e14 : ℝ)
      else (if F < 5e13 then (5e13 : ℝ) else F)) with hG
  have hGb : (5e13 : ℝ) ≤ G ∧ G ≤ 1e14 := by
    rw [hG]
    by_cases h1 : F < 5e13
    · rw [if_pos h1]
      by_cases h2 : (1e14 : ℝ) < 5e13
      · rw [if_pos h2]
        exact ⟨by norm_num, le_refl _⟩
      · rw [if_neg h2]
        exact ⟨le_refl _, by norm_num⟩
    · rw [if_neg h1]
      by_cases h2 : (1e14 : ℝ) < F
      · rw [if_pos h2]
        exact ⟨by norm_num, le_refl _⟩
      · rw [if_neg h2]
        exact ⟨not_lt.mp h1, not_lt.mp h2⟩
  obtain ⟨hb1, hb2⟩ := key G hGb.1 hGb.2
  rw [if_neg (show ¬ (120 + (G - 5e13) / (1e14 - 5e13) * (180 - 120) < 0) from by linarith)]
  rw [if_neg (show ¬ ((200 : ℝ) < 120 + (G - 5e13) / (1e14 - 5e13) * (180 - 120)) from by
    linarith)]
  exact ⟨hb1, hb2⟩

/-- Helper: cppClamp really clamps into the interval. -/
theorem cppClamp_mem (v lo hi : ℝ) (h : lo ≤ hi) :
    lo ≤ cppClamp v lo hi ∧ cppClamp v lo hi ≤ hi := by
  unfold cppClamp
  split_ifs with h1 h2
  · exact ⟨le_refl lo, h⟩
  · exact ⟨h, le_refl hi⟩
  · exact ⟨not_lt.mp h1, not_lt.mp h2⟩

/-- Helper: for positive flux the target temperature lies in \[1100, 1300]. -/
theorem targetTempForFlux_bounds (F : ℝ) (h : ¬ F ≤ 0) :
    1100 ≤ targetTempForFlux F ∧ targetTempForFlux F ≤ 1300 := by
  unfold targetTempForFlux
  rw [if_neg h]
  dsimp only
  have hb := cppClamp_mem
    (if 0 < Real.log 1e14 - Real.log 5e13 then
      (Real.log (cppClamp F 5e13 1e14) - Real.log 5e13) /
        (Real.log 1e14 - Real.log 5e13)
     else 0) 0 1 (by norm_num)
  constructor <;> nlinarith [hb.1, hb.2]

/-- C5 amended: the warm-up budget is zero for non-positive mapped heater
power or a target at or below 310 K; otherwise it equals the closed form
min(60, max(0, ceil(-tau * ln(1 - r) / dt))) for tau = 1000/1.5, where the
gate ratio r uses the gate temperature 0.9 * T_ss (the steady-state
fallback, which is always taken because 0.9 times an in-band target exceeds
the reachable steady state), not 0.9 * T_target as the claim words it. -/
theorem warmup_ticks_amended (F dt : ℝ) (hdt : 0 < dt) :
    (fluxToHeaterPower F ≤ 0 → estimateWarmupTicksForFlux F dt = 0) ∧
    (targetTempForFlux F ≤ 310 → estimateWarmupTicksForFlux F dt = 0) ∧
    (0 < fluxToHeaterPower F → 310 < targetTempForFlux F →
      estimateWarmupTicksForFlux F dt =
        min 60 (max 0 ⌈-(1000 / 1.5) * Real.log (1 - warmupGateRatio F) / dt⌉)) := by
  have hdt2 : ¬ dt ≤ 0 := not_le.mpr hdt
  refine ⟨?_, ?_, ?_⟩
  · intro hP
    unfold estimateWarmupTicksForFlux
    rw [if_neg hdt2, if_pos hP]
  · intro hT
    unfold estimateWarmupTicksForFlux
    rw [if_neg hdt2]
    by_cases hP : fluxToHeaterPower F ≤ 0
    · rw [if_pos hP]
    · rw [if_neg hP, if_pos (show targetTempForFlux F ≤ 300 + 10 from by linarith)]
  · intro hP hT
    have hF : ¬ F ≤ 0 := by
      intro hf
      unfold fluxToHeaterPower at hP
      rw [if_pos hf] at hP
      exact lt_irrefl 0 hP
    obtain ⟨h120, h180⟩ := fluxToHeaterPower_bounds F hF
    obtain ⟨h1100, h1300⟩ := targetTempForFlux_bounds F hF
    have hss1 : (380 : ℝ) ≤ 300 + fluxToHeaterPower F / 1.5 := by
      have : (80 : ℝ) ≤ fluxToHeaterPower F / 1.5 := by
        rw [le_div_iff (by norm_num : (0 : ℝ) < 1.5)]
        linarith
      linarith
    have hss2 : 300 + fluxToHeaterPower F / 1.5 ≤ 420 := by
      have : fluxToHeaterPower F / 1.5 ≤ 120 := by
        rw [div_le_iff (by norm_num : (0 : ℝ) < 1.5)]
        linarith
      linarith
    unfold estimateWarmupTicksForFlux
    rw [if_neg hdt2, if_neg (not_le.mpr hP),
      if_neg (show ¬ targetTempForFlux F ≤ 300 + 10 from by linarith)]
    dsimp only
    rw [if_neg (show ¬ 300 + fluxToHeaterPower F / 1.5 ≤ 300 + 1 from by linarith)]
    have hfall : 300 + fluxToHeaterPower F / 1.5 ≤ 0.9 * targetTempForFlux F := by
      nlinarith
    rw [if_pos hfall]
    have hnum : (42 : ℝ) ≤ 0.9 * (300 + fluxToHeaterPower F / 1.5) - 300 := by
      nlinarith
    have hden : (80 : ℝ) ≤ 300 + fluxToHeaterPower F / 1.5 - 300 := by linarith
    rw [if_neg (show ¬ (0.9 * (300 + fluxToHeaterPower F / 1.5) - 300 ≤ 0 ∨
        300 + fluxToHeaterPower F / 1.5 - 300 ≤ 0) from by
      rintro (hc | hc) <;> linarith)]
    have hr1 : (0.9 * (300 + fluxToHeaterPower F / 1.5) - 300) /
        (300 + fluxToHeaterPower F / 1.5 - 300) < 1 := by
      rw [div_lt_one (by linarith)]
      nlinarith
    have hr0 : 0 < (0.9 * (300 + fluxToHeaterPower F / 1.5) - 300) /
        (300 + fluxToHeaterPower F / 1.5 - 300) :=
      div_pos (by linarith) (by linarith)
    rw [if_neg (not_le.mpr hr1), if_neg (not_le.mpr hr0)]
    have hlog : Real.log (1 - (0.9 * (300 + fluxToHeaterPower F / 1.5) - 300) /
        (300 + fluxToHeaterPower F / 1.5 - 300)) < 0 :=
      Real.log_neg (by linarith) (by linarith)
    have htg : 0 < -(1000 / 1.5) * Real.log (1 -
        (0.9 * (300 + fluxToHeaterPower F / 1.5) - 300) /
          (300 + fluxToHeaterPower F / 1.5 - 300)) :=
      mul_pos_of_neg_of_neg (by norm_num) hlog
    rw [if_neg (not_le.mpr htg)]
    have hratio : warmupGateRatio F =
        (0.9 * (300 + fluxToHeaterPower F / 1.5) - 300) /
          (300 + fluxToHeaterPower F / 1.5 - 300) := by
      unfold warmupGateRatio
      dsimp only
      rw [if_pos hfall]
    rw [hratio]
    have hminmax : ∀ t : ℤ,
        (if t < 0 then (0 : ℤ) else if 60 < t then 60 else t) = min 60 (max 0 t) := by
      intro t
      split_ifs <;> omega
    exact hminmax _

/-- Helper: the mapped heater power at the lower design flux is exactly
120 W. -/
theorem fluxToHeaterPower_at_low : fluxToHeaterPower 5e13 = 120 := by
  unfold fluxToHeaterPower
  norm_num

/-- Helper: the target temperature at the lower design flux is exactly
1100 K. -/
theorem targetTempForFlux_at_low : targetTempForFlux 5e13 = 1100 := by
  unfold targetTempForFlux
  rw [if_neg (by norm_num : ¬ (5e13 : ℝ) ≤ 0)]
  dsimp only
  have hc : cppClamp 5e13 5e13 1e14 = 5e13 := by
    unfold cppClamp
    norm_num
  rw [hc, sub_self, zero_div, ite_self]
  have hc0 : cppClamp 0 0 1 = 0 := by
    unfold cppClamp
    norm_num
  rw [hc0]
  norm_num

/-- Counterexample to C5 as stated: at the lower design flux (5e13, mapped
heater power 120 W, target 1100 K) and dt = 0.1 s the code computes a
60-tick warm-up (the gate always falls back to 0.9 of the 380 K steady
state), while the claim's closed form, whose ratio applies the gate fraction
to the target-temperature rise, yields 0 because 0.9 * 1100 K far exceeds
the reachable steady state and 1 - ratio is negative there. -/
theorem warmup_ticks_counterexample :
    estimateWarmupTicksForFlux 5e13 (1 / 10) = 60 ∧
    claimWarmupClosedForm 5e13 (1 / 10) = 0 ∧
    estimateWarmupTicksForFlux 5e13 (1 / 10) ≠ claimWarmupClosedForm 5e13 (1 / 10) := by
  have hest : estimateWarmupTicksForFlux 5e13 (1 / 10) = 60 := by
    unfold estimateWarmupTicksForFlux
    rw [if_neg (by norm_num : ¬ (1 / 10 : ℝ) ≤ 0)]
    dsimp only
    rw [fluxToHeaterPower_at_low, targetTempForFlux_at_low]
    rw [if_neg (by norm_num : ¬ (120 : ℝ) ≤ 0),
      if_neg (by norm_num : ¬ (1100 : ℝ) ≤ 300 + 10),
      if_neg (by norm_num : ¬ (300 : ℝ) + 120 / 1.5 ≤ 300 + 1),
      if_pos (by norm_num : (300 : ℝ) + 120 / 1.5 ≤ 0.9 * 1100),
      if_neg (show ¬ ((0.9 * ((300 : ℝ) + 120 / 1.5) - 300 ≤ 0 ∨
        (300 : ℝ) + 120 / 1.5 - 300 ≤ 0)) from by
          rintro (hc | hc) <;> norm_num at hc),
      if_neg (by norm_num : ¬ (1 : ℝ) ≤
        (0.9 * ((300 : ℝ) + 120 / 1.5) - 300) / ((300 : ℝ) + 120 / 1.5 - 300)),
      if_neg (by norm_num : ¬ (0.9 * ((300 : ℝ) + 120 / 1.5) - 300) /
        ((300 : ℝ) + 120 / 1.5 - 300) ≤ 0)]
    have hxval : (1 : ℝ) - (0.9 * ((300 : ℝ) + 120 / 1.5) - 300) /
        ((300 : ℝ) + 120 / 1.5 - 300) = 19 / 40 := by norm_num
    rw [hxval]
    have hlog : Real.log ((19 : ℝ) / 40) < 0 :=
      Real.log_neg (by norm_num) (by norm_num)
    rw [if_neg (not_le.mpr (mul_pos_of_neg_of_neg (by norm_num) hlog))]
    have hinv : Real.log ((19 : ℝ) / 40) = -Real.log ((40 : ℝ) / 19) := by
      rw [show ((19 : ℝ) / 40) = ((40 : ℝ) / 19)⁻¹ from by norm_num, Real.log_inv]
    have hmono : Real.log 2 ≤ Real.log ((40 : ℝ) / 19) :=
      (Real.log_le_log_iff (by norm_num) (by norm_num)).mpr (by norm_num)
    have hd9 := Real.log_two_gt_d9
    have h60 : (60 : ℤ) < ⌈-(1000 / 1.5) * Real.log ((19 : ℝ) / 40) / (1 / 10)⌉ := by
      rw [Int.lt_ceil]
      push_cast
      nlinarith
    rw [if_neg (show ¬ (⌈-(1000 / 1.5) * Real.log ((19 : ℝ) / 40) / (1 / 10)⌉ < 0) from by
      omega), if_pos h60]
  have hclaim : claimWarmupClosedForm 5e13 (1 / 10) = 0 := by
    unfold claimWarmupClosedForm
    dsimp only
    rw [fluxToHeaterPower_at_low, targetTempForFlux_at_low]
    have hxval : (1 : ℝ) - (0.9 * (1100 : ℝ) - 300) /
        ((300 : ℝ) + 120 / 1.5 - 300) = -(61 / 8) := by norm_num
    rw [hxval, Real.log_neg_eq_log]
    have hlogpos : 0 < Real.log ((61 : ℝ) / 8) := Real.log_pos (by norm_num)
    have hle : ⌈-(1000 / 1.5) * Real.log ((61 : ℝ) / 8) / (1 / 10)⌉ ≤ 0 := by
      rw [Int.ceil_le]
      push_cast
      nlinarith
    have hmax : max 0 ⌈-(1000 / 1.5) * Real.log ((61 : ℝ) / 8) / (1 / 10)⌉ = 0 := by
      omega
    rw [hmax]
    omega
  refine ⟨hest, hclaim, ?_⟩
  rw [hest, hclaim]
  norm_num

/-- Witness for the amended C5 theorem at the lower design flux and
dt = 1 s. -/
theorem warmup_ticks_amended_witness :
    (fluxToHeaterPower 5e13 ≤ 0 → estimateWarmupTicksForFlux 5e13 1 = 0) ∧
    (targetTempForFlux 5e13 ≤ 310 → estimateWarmupTicksForFlux 5e13 1 = 0) ∧
    (0 < fluxToHeaterPower 5e13 → 310 < targetTempForFlux 5e13 →
      estimateWarmupTicksForFlux 5e13 1 =
        min 60 (max 0 ⌈-(1000 / 1.5) * Real.log (1 - warmupGateRatio 5e13) / 1⌉)) :=
  warmup_ticks_amended 5e13 1 (by norm_num)

end SpaceforgeXai
